import Mathlib

/-!
Verification of the Template Intelligence Engine (template lifecycle
pipeline: job queue, pipeline coordinator, document assembler, version
manager, and the dashboard frontend).

Part 1 embeds the frontend TypeScript that is present in the repository
(`lib/api.ts` interface declarations, `job-monitor` progress computation,
`upload-zone` file gate, `template-list` generation gate).

Part 2 models the backend pipeline core from the specification, since the
backend implementation itself is not part of the source tree: the job
store's atomic `claim`, the pipeline coordinator's stage graph, the
assembler's surgical single-section regeneration, and version-number
allocation.
-/

namespace TemplateEngine

/-- Job status, the four-value union used both by `ApiJob.status` in
`lib/api.ts` and by the spec's Job data model. -/
inductive JobStatus where
  | PENDING
  | RUNNING
  | COMPLETED
  | FAILED
deriving DecidableEq, Repr

/-- The literal members of the `job_type` union declared on `ApiJob` in
`lib/api.ts` (`job_type: 'PARSE' | 'CLASSIFY' | 'GENERATE'`); the `Job`
interface of the job-monitor component declares the same three members. -/
def apiJobTypeValues : List String := ["PARSE", "CLASSIFY", "GENERATE"]

/-- The literal members of the `status` union declared on `ApiJob` in
`lib/api.ts` (`status: 'PENDING' | 'RUNNING' | 'COMPLETED' | 'FAILED'`). -/
def apiJobStatusValues : List String := ["PENDING", "RUNNING", "COMPLETED", "FAILED"]

/-- The five-value `job_type` enumeration as the spec words it:
PARSE | CLASSIFY | GENERATE | REGENERATE_SECTION | REGENERATE_DOCUMENT.
Stated from the spec for comparison with the interface declaration. -/
def specJobTypeValues : List String :=
  ["PARSE", "CLASSIFY", "GENERATE", "REGENERATE_SECTION", "REGENERATE_DOCUMENT"]

/-- The four-value `status` enumeration as the spec words it. -/
def specJobStatusValues : List String := ["PENDING", "RUNNING", "COMPLETED", "FAILED"]

/-- One job as the job-monitor component receives it from the API: only the
fields its progress computation can observe are relevant, but the other
fields are kept so that independence from them is expressible. -/
structure ApiJobRec where
  id : String
  job_type : String
  status : JobStatus
  payload : List (String × String)
  result : Option String
  errorMsg : Option String
  created_at : String
  updated_at : String
deriving DecidableEq, Repr

/-- The progress computation of `loadJobs` in the job-monitor component:
`let progress = 0; if (j.status === 'COMPLETED') progress = 100; else if
(j.status === 'RUNNING') progress = 50; else if (j.status === 'FAILED')
progress = j.result ? 50 : 20` (a present result is truthy, an absent one
falsy). -/
def progressOf (j : ApiJobRec) : Nat :=
  if j.status = JobStatus.COMPLETED then 100
  else if j.status = JobStatus.RUNNING then 50
  else if j.status = JobStatus.FAILED then (if j.result.isSome then 50 else 20)
  else 0

/-- Outcome of the pre-upload gate at the top of `handleFiles` in the
upload-zone component, before any API request is issued. -/
inductive UploadOutcome where
  | silentReturn
  | errorStatus
  | upload
deriving DecidableEq, Repr

/-- JavaScript's `String.prototype.endsWith`, over the character sequence
of the two strings. -/
def strEndsWith (s suffix : String) : Bool :=
  List.isSuffixOf suffix.data s.data

/-- The gate at the top of `handleFiles` in the upload-zone component:
`if (files.length === 0) return;` then
`if (!file.name.endsWith('.docx') && !file.name.endsWith('.doc'))`
sets an error message and error status and returns; otherwise the handler
proceeds to the `createTemplate` / `uploadTemplateVersion` API calls. -/
def handleFilesGate (files : List String) : UploadOutcome :=
  match files with
  | [] => UploadOutcome.silentReturn
  | f :: _ =>
    if !(strEndsWith f ".docx") && !(strEndsWith f ".doc") then UploadOutcome.errorStatus
    else UploadOutcome.upload

/-- Whether an outcome of the gate reaches the API calls of `handleFiles`. -/
def makesApiCall : UploadOutcome → Bool
  | UploadOutcome.upload => true
  | _ => false

/-- Whether an outcome of the gate sets `uploadStatus` to `'error'`. -/
def setsErrorStatus : UploadOutcome → Bool
  | UploadOutcome.errorStatus => true
  | _ => false

/-!
## Part 2: the backend pipeline core, modelled from the specification

The backend implementation (job store, pipeline coordinator, assembler,
version manager) is not part of the source tree; the definitions below are
modelled from the specification's words, as their doc comments record.
-/

/-- Modelled from the spec: one record of the Job Store, the durable source
of truth for the pipeline (§3 Job). Only the fields `claim` touches are
carried: `id`, `status`, and `claimed_by`. -/
structure QJob where
  id : Nat
  status : JobStatus
  claimed_by : Option Nat
deriving DecidableEq, Repr

/-- Whether a job status is PENDING, i.e. the job is claimable. -/
def isPending : JobStatus → Bool
  | JobStatus.PENDING => true
  | _ => false

/-- Modelled from the spec: `claim(worker_id)` atomically transitions
exactly one PENDING job to RUNNING with `claimed_by = worker_id` and
returns its id, or returns nothing when no claimable job exists (§4.1).
The store is a list of jobs; the first PENDING one is claimed. The whole
function is one atomic step: a concurrent execution of many `claim` calls
is a sequence of such steps in some order. -/
def claim : List QJob → Nat → Option Nat × List QJob
  | [], _ => (none, [])
  | j :: rest, w =>
    if isPending j.status then
      (some j.id, { j with status := JobStatus.RUNNING, claimed_by := some w } :: rest)
    else
      ((claim rest w).1, j :: (claim rest w).2)

/-- A sequence of `claim` calls, one per worker in the list (a worker may
appear several times), each an atomic step against the store left by the
previous one; returns the (worker, job id) pairs of the successful claims
and the final store. Every interleaving of concurrent atomic claims is
such a sequence. -/
def runClaims : List QJob → List Nat → List (Nat × Nat) × List QJob
  | s, [] => ([], s)
  | s, w :: ws =>
    match claim s w with
    | (none, s') => runClaims s' ws
    | (some jid, s') => ((w, jid) :: (runClaims s' ws).1, (runClaims s' ws).2)

/-- The ids of the PENDING (claimable) jobs of a store, in store order. -/
def pendingIds (s : List QJob) : List Nat :=
  (s.filter (fun j => isPending j.status)).map QJob.id

/-- Modelled from the spec: the Version Manager allocates `version_number`
by a single atomic increment per template (per document); the `k`-th
creation receives number `k`, starting at 1 (§3, §5). `allocVersions k` is
the version-number sequence after `k` creation attempts have been
serialized by that atomic increment. -/
def allocVersions : Nat → List Nat
  | 0 => []
  | n + 1 => allocVersions n ++ [n + 1]

/-- The per-TemplateVersion states of the Pipeline Coordinator's machine
(§4.2): NOT_STARTED → PARSING → PARSED → CLASSIFYING → READY, with FAILED
absorbing. In the model the coordinator's reaction to PARSE completion
persists the model and enqueues CLASSIFY in one atomic step, so PARSED is
passed through inside that step. -/
inductive TVState where
  | NOT_STARTED
  | PARSING
  | PARSED
  | CLASSIFYING
  | READY
  | FAILED
deriving DecidableEq, Repr

/-- The five job types of the pipeline (§3 Job). -/
inductive JobType where
  | PARSE
  | CLASSIFY
  | GENERATE
  | REGENERATE_SECTION
  | REGENERATE_DOCUMENT
deriving DecidableEq, Repr

/-- Modelled from the spec: the pipeline state for one TemplateVersion —
the coordinator state, the status of its PARSE and CLASSIFY jobs (none
until enqueued), whether the parsed structural model has been persisted,
and how many CLASSIFY jobs have ever been enqueued for it. -/
structure CoordState where
  tv : TVState
  parse : Option JobStatus
  classify : Option JobStatus
  modelPersisted : Bool
  classifyEnqueued : Nat
deriving DecidableEq, Repr

/-- The state before the TemplateVersion is uploaded. -/
def initCoord : CoordState :=
  { tv := TVState.NOT_STARTED, parse := none, classify := none,
    modelPersisted := false, classifyEnqueued := 0 }

/-- Modelled from the spec: the Coordinator's reaction to a PARSE job
COMPLETED event — persist the parsed structural model reference, set
parsing status, and enqueue exactly one CLASSIFY job; the handler is keyed
by a "has this TemplateVersion already left PARSING" check, not by event
delivery count (§4.2). -/
def handleParseCompleted (s : CoordState) : CoordState :=
  if s.tv = TVState.PARSING ∧ s.parse = some JobStatus.COMPLETED then
    { s with tv := TVState.CLASSIFYING, modelPersisted := true,
             classify := some JobStatus.PENDING,
             classifyEnqueued := s.classifyEnqueued + 1 }
  else s

/-- Modelled from the spec: the Coordinator's reaction to a CLASSIFY job
COMPLETED event — persist the Section set and mark the TemplateVersion
READY; keyed by a "still in CLASSIFYING" check (§4.2). -/
def handleClassifyCompleted (s : CoordState) : CoordState :=
  if s.tv = TVState.CLASSIFYING ∧ s.classify = some JobStatus.COMPLETED then
    { s with tv := TVState.READY }
  else s

/-- Modelled from the spec: one atomic transition of the pipeline for one
TemplateVersion — upload (enqueues the PARSE job), worker claim /
complete / fail of each job, and the Coordinator's reactions to completion
events (which may be replayed: the event steps are guarded only by the
job being COMPLETED). -/
inductive CoordStep : CoordState → CoordState → Prop
  | uploadVersion (s : CoordState) (h : s.tv = TVState.NOT_STARTED) :
      CoordStep s { s with tv := TVState.PARSING, parse := some JobStatus.PENDING }
  | claimParse (s : CoordState) (h : s.parse = some JobStatus.PENDING) :
      CoordStep s { s with parse := some JobStatus.RUNNING }
  | completeParse (s : CoordState) (h : s.parse = some JobStatus.RUNNING) :
      CoordStep s { s with parse := some JobStatus.COMPLETED }
  | failParse (s : CoordState) (h : s.parse = some JobStatus.RUNNING) :
      CoordStep s { s with parse := some JobStatus.FAILED, tv := TVState.FAILED }
  | parseEvent (s : CoordState) (h : s.parse = some JobStatus.COMPLETED) :
      CoordStep s (handleParseCompleted s)
  | claimClassify (s : CoordState) (h : s.classify = some JobStatus.PENDING) :
      CoordStep s { s with classify := some JobStatus.RUNNING }
  | completeClassify (s : CoordState) (h : s.classify = some JobStatus.RUNNING) :
      CoordStep s { s with classify := some JobStatus.COMPLETED }
  | failClassify (s : CoordState) (h : s.classify = some JobStatus.RUNNING) :
      CoordStep s { s with classify := some JobStatus.FAILED, tv := TVState.FAILED }
  | classifyEvent (s : CoordState) (h : s.classify = some JobStatus.COMPLETED) :
      CoordStep s (handleClassifyCompleted s)

/-- The pipeline states reachable from the initial state. -/
inductive Reachable : CoordState → Prop
  | init : Reachable initCoord
  | step {s t : CoordState} : Reachable s → CoordStep s t → Reachable t

/-- Modelled from the spec: Document creation against a TemplateVersion is
only accepted when it is READY, otherwise it fails with `NotReadyError`;
on acceptance the Coordinator enqueues one GENERATE job (§4.2). The queue
of enqueued jobs is passed and returned explicitly. -/
def createDocument (s : CoordState) (queue : List JobType) :
    Except String (CoordState × List JobType) :=
  if s.tv = TVState.READY then Except.ok (s, queue ++ [JobType.GENERATE])
  else Except.error "NotReadyError"

/-- Whether a `createDocument` call was accepted. -/
def isAccepted (r : Except String (CoordState × List JobType)) : Bool :=
  match r with
  | Except.ok _ => true
  | Except.error _ => false

/-- STATIC or DYNAMIC, the label the Section Classifier attaches to a
structural block (§3 Section). -/
inductive SectionType where
  | STATIC
  | DYNAMIC
deriving DecidableEq, Repr

/-- Modelled from the spec: one classified Section of a TemplateVersion —
a stable structural path, its STATIC/DYNAMIC label, and its optional
prompt configuration (§3 Section). -/
structure TemplateSection where
  path : List Nat
  sectionType : SectionType
  promptConfig : Option String
deriving DecidableEq, Repr

/-- Modelled from the spec: one structural block of a DocumentVersion — a
stable structural path, raw content, and formatting metadata (§6 parsed
structural model). -/
structure Block where
  path : List Nat
  content : String
  formatting : String
deriving DecidableEq, Repr

/-- The errors of the Assembler (§7). -/
inductive RegenError where
  | InvalidSectionError
  | GenerationError
deriving DecidableEq, Repr

/-- Modelled from the spec: single-section regeneration — given the
Section set, the current DocumentVersion's blocks, and a target section
path, regenerate only that section's content (the target must be DYNAMIC;
a STATIC target fails with `InvalidSectionError`) and produce the new
block sequence in which every other block is copied unchanged, addressed
by structural path (§4.3). -/
def regenerateSection (sections : List TemplateSection) (current : List Block)
    (target : List Nat) (gen : List Nat → String) : Except RegenError (List Block) :=
  match sections.find? (fun sec => sec.path = target) with
  | none => Except.error RegenError.InvalidSectionError
  | some sec =>
    if sec.sectionType = SectionType.DYNAMIC then
      Except.ok (current.map (fun b =>
        if b.path = target then { b with content := gen target } else b))
    else Except.error RegenError.InvalidSectionError

/-- Modelled from the spec: a Document's mutable state — its immutable
DocumentVersions (index `i` holding version_number `i + 1`) and its
`current_version` pointer (§3 Document, DocumentVersion). -/
structure DocState where
  versions : List (List Block)
  currentVersion : Nat
deriving DecidableEq, Repr

/-- Modelled from the spec: executing a REGENERATE_SECTION job against a
Document — regenerate the target section of the current DocumentVersion;
on success append one new DocumentVersion and advance `current_version`;
on failure report the error and leave the Document unchanged (§4.3). -/
def runRegenerateSectionJob (sections : List TemplateSection) (d : DocState)
    (target : List Nat) (gen : List Nat → String) : Option RegenError × DocState :=
  match regenerateSection sections (d.versions.getLastD []) target gen with
  | Except.error e => (some e, d)
  | Except.ok nb =>
    (none, { versions := d.versions ++ [nb], currentVersion := d.currentVersion + 1 })

/-!
## Part 3: auxiliary definitions used by the proofs
-/

/-- The inductive invariant of the pipeline state machine: a CLASSIFY job
exists only after its PARSE job COMPLETED and the parsed model was
persisted; before upload no PARSE job exists; READY means both stages
succeeded. -/
def CoordInv (s : CoordState) : Prop :=
  (s.classify ≠ none → s.parse = some JobStatus.COMPLETED ∧ s.modelPersisted = true) ∧
  (s.tv = TVState.NOT_STARTED → s.parse = none) ∧
  (s.tv = TVState.READY →
    s.parse = some JobStatus.COMPLETED ∧ s.classify = some JobStatus.COMPLETED ∧
    s.modelPersisted = true)

/-- A small concrete job store: three PENDING jobs among others. -/
def demoStore : List QJob :=
  [⟨1, JobStatus.PENDING, none⟩, ⟨2, JobStatus.RUNNING, some 7⟩,
   ⟨3, JobStatus.PENDING, none⟩, ⟨4, JobStatus.COMPLETED, none⟩,
   ⟨5, JobStatus.PENDING, none⟩]

/-- Pipeline state right after upload: PARSE enqueued. -/
def sUploaded : CoordState :=
  { tv := TVState.PARSING, parse := some JobStatus.PENDING, classify := none,
    modelPersisted := false, classifyEnqueued := 0 }

/-- Pipeline state while the PARSE job runs. -/
def sParseRunning : CoordState := { sUploaded with parse := some JobStatus.RUNNING }

/-- Pipeline state once the PARSE job has COMPLETED, before the
coordinator reacts. -/
def sParseDone : CoordState := { sUploaded with parse := some JobStatus.COMPLETED }

/-- Pipeline state after the coordinator processed the PARSE completion:
model persisted, CLASSIFY enqueued. -/
def sClassifyPending : CoordState :=
  { tv := TVState.CLASSIFYING, parse := some JobStatus.COMPLETED,
    classify := some JobStatus.PENDING, modelPersisted := true, classifyEnqueued := 1 }

/-- Pipeline state while the CLASSIFY job runs. -/
def sClassifyRunning : CoordState :=
  { sClassifyPending with classify := some JobStatus.RUNNING }

/-- Pipeline state once the CLASSIFY job has COMPLETED. -/
def sClassifyDone : CoordState :=
  { sClassifyPending with classify := some JobStatus.COMPLETED }

/-- Pipeline state after the coordinator processed the CLASSIFY
completion: the TemplateVersion is READY. -/
def sReady : CoordState :=
  { tv := TVState.READY, parse := some JobStatus.COMPLETED,
    classify := some JobStatus.COMPLETED, modelPersisted := true, classifyEnqueued := 1 }

/-- A concrete Section set: one STATIC and one DYNAMIC section. -/
def demoSections : List TemplateSection :=
  [⟨[0], SectionType.STATIC, none⟩, ⟨[1], SectionType.DYNAMIC, some "summarize"⟩]

/-- A concrete current DocumentVersion content. -/
def demoBlocks : List Block :=
  [⟨[0], "disclaimer text", "bold"⟩, ⟨[1], "old summary", "plain"⟩]

/-- A concrete generation collaborator. -/
def demoGen : List Nat → String := fun _ => "fresh summary"

/-- The blocks produced by regenerating section `[1]` of `demoBlocks`. -/
def demoOut : List Block :=
  [⟨[0], "disclaimer text", "bold"⟩, ⟨[1], "fresh summary", "plain"⟩]

/-- A concrete Document with one existing DocumentVersion. -/
def demoDoc : DocState := { versions := [demoBlocks], currentVersion := 1 }

/-- A concrete FAILED job carrying a result, as the job monitor sees it. -/
def demoFailedJob : ApiJobRec :=
  { id := "j1", job_type := "GENERATE", status := JobStatus.FAILED, payload := [],
    result := some "partial", errorMsg := some "boom", created_at := "t0", updated_at := "t1" }

/-!
## Theorems
-/

/-- C8 counterexample: the `job_type` union declared on `ApiJob` in
`lib/api.ts` does not contain `REGENERATE_SECTION` (nor
`REGENERATE_DOCUMENT`), so it is not the five-value enumeration and those
two values cannot occur on a Job exposed through this interface. -/
theorem apiJobType_not_five_values :
    "REGENERATE_SECTION" ∉ apiJobTypeValues ∧ "REGENERATE_DOCUMENT" ∉ apiJobTypeValues := by
  decide

/-- C8 (amended): every `job_type` value of the public `ApiJob` interface
is drawn from a three-value enumeration that is a strict subset of the
spec's five (`REGENERATE_SECTION`, `REGENERATE_DOCUMENT` are missing),
and the `status` values are exactly the four of the spec. -/
theorem apiJob_enum_amended :
    (∀ t ∈ apiJobTypeValues, t ∈ specJobTypeValues) ∧
    (∃ t ∈ specJobTypeValues, t ∉ apiJobTypeValues) ∧
    (∀ st ∈ apiJobStatusValues, st ∈ specJobStatusValues) ∧
    (∀ st ∈ specJobStatusValues, st ∈ apiJobStatusValues) := by
  decide

/-- C8 witness: `PARSE` is an interface job type and is among the spec's
five. -/
theorem apiJob_enum_amended_witness : "PARSE" ∈ specJobTypeValues :=
  apiJob_enum_amended.1 "PARSE" (by decide)

/-- C9: the progress value computed by the job monitor's `loadJobs` is
100 for COMPLETED, 50 for RUNNING, 50 for FAILED with a result, 20 for
FAILED without one, 0 for PENDING, and depends on no job field other than
the status and the presence of a result. -/
theorem jobmonitor_progress_spec :
    (∀ j : ApiJobRec, j.status = JobStatus.COMPLETED → progressOf j = 100) ∧
    (∀ j : ApiJobRec, j.status = JobStatus.RUNNING → progressOf j = 50) ∧
    (∀ j : ApiJobRec, j.status = JobStatus.FAILED → j.result.isSome = true →
      progressOf j = 50) ∧
    (∀ j : ApiJobRec, j.status = JobStatus.FAILED → j.result = none →
      progressOf j = 20) ∧
    (∀ j : ApiJobRec, j.status = JobStatus.PENDING → progressOf j = 0) ∧
    (∀ j j' : ApiJobRec, j.status = j'.status → j.result.isSome = j'.result.isSome →
      progressOf j = progressOf j') := by
  refine ⟨?_, ?_, ?_, ?_, ?_, ?_⟩
  · intro j h; simp [progressOf, h]
  · intro j h; simp [progressOf, h]
  · intro j h hr; simp [progressOf, h, hr]
  · intro j h hr; simp [progressOf, h, hr]
  · intro j h; simp [progressOf, h]
  · intro j j' hs hr; simp only [progressOf]; rw [hs, hr]

/-- C9 witness: a FAILED job with a result shows progress 50. -/
theorem jobmonitor_progress_spec_witness : progressOf demoFailedJob = 50 :=
  jobmonitor_progress_spec.2.2.1 demoFailedJob rfl rfl

/-- C10 counterexample: on an empty file list, `handleFiles` returns
silently — it makes no API call but also sets no error status, contrary
to the claim that the empty case sets one. -/
theorem handleFiles_empty_no_error_status :
    makesApiCall (handleFilesGate []) = false ∧
    setsErrorStatus (handleFilesGate []) = false := by
  decide

/-- C10 (amended): an empty file list makes `handleFiles` return silently
with no API call and no error status; a first file whose name ends in
neither `.docx` nor `.doc` causes no API call and sets the error status;
a name ending in `.doc` or in `.docx` passes the gate to the upload API
calls. -/
theorem handleFiles_gate_amended :
    handleFilesGate [] = UploadOutcome.silentReturn ∧
    (∀ f fs, strEndsWith f ".docx" = false → strEndsWith f ".doc" = false →
      handleFilesGate (f :: fs) = UploadOutcome.errorStatus ∧
      makesApiCall (handleFilesGate (f :: fs)) = false) ∧
    (∀ f fs, strEndsWith f ".doc" = true →
      handleFilesGate (f :: fs) = UploadOutcome.upload) ∧
    (∀ f fs, strEndsWith f ".docx" = true →
      handleFilesGate (f :: fs) = UploadOutcome.upload) := by
  refine ⟨rfl, ?_, ?_, ?_⟩
  · intro f fs h1 h2; simp [handleFilesGate, h1, h2, makesApiCall]
  · intro f fs h; simp [handleFilesGate, h]
  · intro f fs h; simp [handleFilesGate, h]

/-- C10 witness: a `.doc` file passes the gate. -/
theorem handleFiles_gate_amended_witness :
    handleFilesGate ["report.doc"] = UploadOutcome.upload :=
  handleFiles_gate_amended.2.2.1 "report.doc" [] (by decide)

/-- Regenerating one section leaves every block's structural path in
place: the rewritten block keeps its path. -/
theorem regen_map_preserves_path (target : List Nat) (gen : List Nat → String)
    (b : Block) :
    (if b.path = target then { b with content := gen target } else b).path = b.path := by
  by_cases h : b.path = target <;> simp [h]

/-- C2: a successful REGENERATE_SECTION run produces a new block sequence
whose block at every structural path other than the target is the block
of the current DocumentVersion at that path, content and formatting
identical. -/
theorem regenerate_section_surgical (sections : List TemplateSection)
    (current : List Block) (target : List Nat) (gen : List Nat → String)
    (out : List Block)
    (hok : regenerateSection sections current target gen = Except.ok out)
    (p : List Nat) (hp : p ≠ target) :
    out.find? (fun b => b.path = p) = current.find? (fun b => b.path = p) := by
  unfold regenerateSection at hok
  cases hfind : sections.find? (fun sec => sec.path = target) with
  | none => rw [hfind] at hok; simp at hok
  | some sec =>
    rw [hfind] at hok
    by_cases hdyn : sec.sectionType = SectionType.DYNAMIC
    · simp only [hdyn, if_true] at hok
      have hout : out = current.map (fun b =>
          if b.path = target then { b with content := gen target } else b) := by
        cases hok; rfl
      subst hout
      rw [List.find?_map]
      have hpred : ((fun b : Block => decide (b.path = p)) ∘
          (fun b => if b.path = target then { b with content := gen target } else b))
          = fun b : Block => decide (b.path = p) := by
        funext b
        simp only [Function.comp]
        rw [regen_map_preserves_path]
      rw [hpred]
      cases hfound : current.find? (fun b => decide (b.path = p)) with
      | none => simp
      | some b =>
        have hbp : b.path = p := by
          have := List.find?_some hfound
          simpa using this
        have hbt : b.path ≠ target := by rw [hbp]; exact hp
        simp [hbt]
    · simp [hdyn] at hok

/-- C2 witness: regenerating the DYNAMIC section `[1]` leaves the block
at path `[0]` untouched. -/
theorem regenerate_section_surgical_witness :
    demoOut.find? (fun b => b.path = [0]) = demoBlocks.find? (fun b => b.path = [0]) :=
  regenerate_section_surgical demoSections demoBlocks [1] demoGen demoOut rfl [0] (by decide)

/-- C5: a REGENERATE_SECTION job whose target section is STATIC fails
with `InvalidSectionError` and leaves the Document unchanged: same
DocumentVersion list, same `current_version` pointer, no new version. -/
theorem regenerate_static_fails (sections : List TemplateSection) (d : DocState)
    (target : List Nat) (gen : List Nat → String) (sec : TemplateSection)
    (hfind : sections.find? (fun s0 => s0.path = target) = some sec)
    (hstatic : sec.sectionType = SectionType.STATIC) :
    runRegenerateSectionJob sections d target gen =
      (some RegenError.InvalidSectionError, d) := by
  simp [runRegenerateSectionJob, regenerateSection, hfind, hstatic]

/-- C5 witness: regenerating the STATIC section `[0]` of the demo
Document fails with `InvalidSectionError` and changes nothing. -/
theorem regenerate_static_fails_witness :
    runRegenerateSectionJob demoSections demoDoc [0] demoGen =
      (some RegenError.InvalidSectionError, demoDoc) :=
  regenerate_static_fails demoSections demoDoc [0] demoGen
    ⟨[0], SectionType.STATIC, none⟩ rfl rfl

/-- The version-number sequence after `k` creations is `[1, 2, ..., k]`. -/
theorem allocVersions_eq_range (k : Nat) : allocVersions k = List.range' 1 k := by
  induction k with
  | zero => rfl
  | succ n ih =>
    rw [allocVersions, ih, List.range'_concat]
    simp [Nat.add_comm]

/-- C3: after any number `k` of serialized creation attempts, the
version_number sequence has length `k`, its `i`-th entry is `i + 1`
(gapless, starting at 1), and it is strictly increasing. -/
theorem version_numbers_gapless (k : Nat) :
    (allocVersions k).length = k ∧
    (∀ i : Fin (allocVersions k).length, (allocVersions k).get i = i.val + 1) ∧
    (∀ i j : Fin (allocVersions k).length, i < j →
      (allocVersions k).get i < (allocVersions k).get j) := by
  have hlen : (allocVersions k).length = k := by
    rw [allocVersions_eq_range, List.length_range']
  have hget : ∀ i : Fin (allocVersions k).length,
      (allocVersions k).get i = i.val + 1 := by
    intro i
    rw [List.get_eq_getElem]
    simp only [allocVersions_eq_range, List.getElem_range'_1]
    omega
  refine ⟨hlen, hget, ?_⟩
  intro i j hij
  rw [hget i, hget j]
  omega

/-- C3 witness: with three creations the first version number is 1 and is
below the third. -/
theorem version_numbers_gapless_witness :
    (allocVersions 3).get ⟨0, by decide⟩ < (allocVersions 3).get ⟨2, by decide⟩ :=
  (version_numbers_gapless 3).2.2 ⟨0, by decide⟩ ⟨2, by decide⟩ (by decide)

/-- The claimable ids of a store with one more job in front. -/
theorem pendingIds_cons (j : QJob) (rest : List QJob) :
    pendingIds (j :: rest) =
      if isPending j.status then j.id :: pendingIds rest else pendingIds rest := by
  by_cases h : isPending j.status <;> simp [pendingIds, List.filter_cons, h]

/-- `claim` returns the first claimable job id, if any. -/
theorem claim_fst (s : List QJob) (w : Nat) :
    (claim s w).1 = (pendingIds s).head? := by
  induction s with
  | nil => simp [claim, pendingIds]
  | cons j rest ih =>
    by_cases h : isPending j.status
    · simp [claim, h, pendingIds_cons]
    · simp [claim, h, pendingIds_cons, ih]

/-- After a `claim`, the claimable ids are the previous ones minus the
first: the claimed job became RUNNING and no other job changed. -/
theorem claim_snd (s : List QJob) (w : Nat) :
    pendingIds (claim s w).2 = (pendingIds s).tail := by
  induction s with
  | nil => simp [claim, pendingIds]
  | cons j rest ih =>
    by_cases h : isPending j.status
    · simp [claim, h, pendingIds_cons]
      simp [isPending]
    · simp [claim, h, pendingIds_cons, ih]

/-- A sequence of `n` atomic claims hands out exactly the first `n`
claimable ids, in order. -/
theorem runClaims_returned (ws : List Nat) (s : List QJob) :
    (runClaims s ws).1.map Prod.snd = (pendingIds s).take ws.length := by
  induction ws generalizing s with
  | nil => simp [runClaims]
  | cons w ws ih =>
    have hfst := claim_fst s w
    have hsnd := claim_snd s w
    cases hp : pendingIds s with
    | nil =>
      rw [hp] at hfst hsnd
      have hnone : (claim s w).1 = none := by simpa using hfst
      have heq : runClaims s (w :: ws) = runClaims (claim s w).2 ws := by
        rw [runClaims]
        rcases hc : claim s w with ⟨r, s'⟩
        rw [hc] at hnone
        simp at hnone
        subst hnone
        rfl
      rw [heq, ih]
      simp [hsnd]
    | cons a t =>
      rw [hp] at hfst hsnd
      have hsome : (claim s w).1 = some a := by simpa using hfst
      have heq : runClaims s (w :: ws) =
          ((w, a) :: (runClaims (claim s w).2 ws).1, (runClaims (claim s w).2 ws).2) := by
        rw [runClaims]
        rcases hc : claim s w with ⟨r, s'⟩
        rw [hc] at hsome
        simp at hsome
        subst hsome
        rfl
      rw [heq]
      simp only [List.map_cons, ih]
      simp [hsnd]

/-- After a sequence of `n` atomic claims, the claimable ids are the ones
beyond the first `n`: nothing else was touched. -/
theorem runClaims_pending (ws : List Nat) (s : List QJob) :
    pendingIds (runClaims s ws).2 = (pendingIds s).drop ws.length := by
  induction ws generalizing s with
  | nil => simp [runClaims]
  | cons w ws ih =>
    have hfst := claim_fst s w
    have hsnd := claim_snd s w
    rw [runClaims]
    rcases hc : claim s w with ⟨r, s'⟩
    rw [hc] at hfst hsnd
    cases r with
    | none =>
      simp only []
      rw [ih]
      have hp : pendingIds s = [] := by
        cases hq : pendingIds s with
        | nil => rfl
        | cons a t => rw [hq] at hfst; simp at hfst
      simp [hsnd, hp]
    | some a =>
      simp only []
      rw [ih]
      cases hq : pendingIds s with
      | nil => rw [hq] at hfst; simp at hfst
      | cons b t => rw [hq] at hsnd; simp [hsnd]

/-- C1: for any store whose claimable jobs have distinct ids and any
sequence of workers each performing one atomic `claim` (any interleaving
of concurrent callers is such a sequence), no two calls receive the same
job id, the number of successful claims is `min` of workers and claimable
jobs, every claimable job is either handed to exactly one worker or still
claimable afterwards (none lost, none duplicated), and when there are at
least as many workers as claimable jobs every claimable job is handed
out. -/
theorem claim_exclusive_no_loss (s : List QJob) (ws : List Nat)
    (hnd : (pendingIds s).Nodup) :
    ((runClaims s ws).1.map Prod.snd).Nodup ∧
    ((runClaims s ws).1.map Prod.snd).length = min ws.length (pendingIds s).length ∧
    (∀ jid ∈ pendingIds s,
      (jid ∈ (runClaims s ws).1.map Prod.snd ∧ jid ∉ pendingIds (runClaims s ws).2) ∨
      (jid ∉ (runClaims s ws).1.map Prod.snd ∧ jid ∈ pendingIds (runClaims s ws).2)) ∧
    ((pendingIds s).length ≤ ws.length →
      ∀ jid ∈ pendingIds s, jid ∈ (runClaims s ws).1.map Prod.snd) := by
  rw [runClaims_returned, runClaims_pending]
  have hdisj : ∀ jid, jid ∈ (pendingIds s).take ws.length →
      jid ∈ (pendingIds s).drop ws.length → False := by
    have h := hnd
    rw [← List.take_append_drop ws.length (pendingIds s), List.nodup_append] at h
    exact fun jid h1 h2 => h.2.2 h1 h2
  refine ⟨?_, ?_, ?_, ?_⟩
  · exact hnd.sublist (List.take_sublist _ _)
  · exact List.length_take _ _
  · intro jid hmem
    by_cases h : jid ∈ (pendingIds s).take ws.length
    · exact Or.inl ⟨h, fun h2 => hdisj jid h h2⟩
    · refine Or.inr ⟨h, ?_⟩
      have := hmem
      rw [← List.take_append_drop ws.length (pendingIds s), List.mem_append] at this
      exact this.resolve_left h
  · intro hle jid hmem
    rw [List.take_of_length_le hle]
    exact hmem

/-- C1 witness: three PENDING jobs, two workers — both claims succeed on
distinct jobs. -/
theorem claim_exclusive_no_loss_witness :
    (pendingIds demoStore).Nodup ∧ ((runClaims demoStore [10, 11]).1.map Prod.snd).Nodup :=
  ⟨by decide, (claim_exclusive_no_loss demoStore [10, 11] (by decide)).1⟩

/-- The initial pipeline state satisfies the invariant. -/
theorem coordInv_init : CoordInv initCoord := by
  refine ⟨?_, ?_, ?_⟩ <;> intro h <;> simp [initCoord] at h ⊢

/-- Every pipeline transition preserves the invariant. -/
theorem coordInv_step {s t : CoordState} (hs : CoordInv s) (hst : CoordStep s t) :
    CoordInv t := by
  obtain ⟨hA, hB, hC⟩ := hs
  have hCnone : s.parse ≠ some JobStatus.COMPLETED → s.classify = none := by
    intro hne
    by_contra hcl
    exact hne (hA hcl).1
  cases hst with
  | uploadVersion h =>
    have hp : s.parse = none := hB h
    have hc : s.classify = none := hCnone (by rw [hp]; intro hx; cases hx)
    refine ⟨?_, ?_, ?_⟩ <;> intro h' <;> simp_all
  | claimParse h =>
    have hc : s.classify = none := hCnone (by rw [h]; intro hx; cases hx)
    have hnotNS : s.tv ≠ TVState.NOT_STARTED := by
      intro hx; rw [hB hx] at h; cases h
    have hnotR : s.tv ≠ TVState.READY := by
      intro hx; rw [(hC hx).1] at h; simp at h
    refine ⟨?_, ?_, ?_⟩ <;> intro h' <;> simp_all
  | completeParse h =>
    have hc : s.classify = none := hCnone (by rw [h]; intro hx; cases hx)
    have hnotNS : s.tv ≠ TVState.NOT_STARTED := by
      intro hx; rw [hB hx] at h; cases h
    have hnotR : s.tv ≠ TVState.READY := by
      intro hx; rw [(hC hx).1] at h; simp at h
    refine ⟨?_, ?_, ?_⟩ <;> intro h' <;> simp_all
  | failParse h =>
    have hc : s.classify = none := hCnone (by rw [h]; intro hx; cases hx)
    refine ⟨?_, ?_, ?_⟩ <;> intro h' <;> simp_all
  | parseEvent h =>
    unfold handleParseCompleted
    by_cases hg : s.tv = TVState.PARSING ∧ s.parse = some JobStatus.COMPLETED
    · rw [if_pos hg]
      refine ⟨?_, ?_, ?_⟩ <;> intro h' <;> simp_all
    · rw [if_neg hg]
      exact ⟨hA, hB, hC⟩
  | claimClassify h =>
    have hpc := hA (by rw [h]; intro hx; cases hx)
    have hnotNS : s.tv ≠ TVState.NOT_STARTED := by
      intro hx; rw [hB hx] at hpc; cases hpc.1
    have hnotR : s.tv ≠ TVState.READY := by
      intro hx; rw [(hC hx).2.1] at h; simp at h
    refine ⟨?_, ?_, ?_⟩ <;> intro h' <;> simp_all
  | completeClassify h =>
    have hpc := hA (by rw [h]; intro hx; cases hx)
    have hnotNS : s.tv ≠ TVState.NOT_STARTED := by
      intro hx; rw [hB hx] at hpc; cases hpc.1
    have hnotR : s.tv ≠ TVState.READY := by
      intro hx; rw [(hC hx).2.1] at h; simp at h
    refine ⟨?_, ?_, ?_⟩ <;> intro h' <;> simp_all
  | failClassify h =>
    have hpc := hA (by rw [h]; intro hx; cases hx)
    refine ⟨?_, ?_, ?_⟩ <;> intro h' <;> simp_all
  | classifyEvent h =>
    unfold handleClassifyCompleted
    by_cases hg : s.tv = TVState.CLASSIFYING ∧ s.classify = some JobStatus.COMPLETED
    · rw [if_pos hg]
      have hpc := hA (by rw [h]; intro hx; cases hx)
      refine ⟨?_, ?_, ?_⟩ <;> intro h' <;> simp_all
    · rw [if_neg hg]
      exact ⟨hA, hB, hC⟩

/-- Every reachable pipeline state satisfies the invariant. -/
theorem coordInv_reachable (s : CoordState) (hr : Reachable s) : CoordInv s := by
  induction hr with
  | init => exact coordInv_init
  | step _ hst ih => exact coordInv_step ih hst

/-- C4: in every reachable pipeline state in which the CLASSIFY job of a
TemplateVersion is claimable (PENDING, hence returnable by `claim`), its
PARSE job has status COMPLETED and the parsed structural model has been
persisted. -/
theorem classify_never_claimable_before_parse (s : CoordState) (hr : Reachable s)
    (hc : s.classify = some JobStatus.PENDING) :
    s.parse = some JobStatus.COMPLETED ∧ s.modelPersisted = true :=
  (coordInv_reachable s hr).1 (by rw [hc]; intro hx; cases hx)

/-- The state with CLASSIFY pending is reachable: upload, claim PARSE,
complete PARSE, coordinator reaction. -/
theorem reachable_sClassifyPending : Reachable sClassifyPending := by
  have h0 : Reachable initCoord := Reachable.init
  have h1 : Reachable sUploaded :=
    Reachable.step h0 (CoordStep.uploadVersion initCoord rfl)
  have h2 : Reachable sParseRunning :=
    Reachable.step h1 (CoordStep.claimParse sUploaded rfl)
  have h3 : Reachable sParseDone :=
    Reachable.step h2 (CoordStep.completeParse sParseRunning rfl)
  have h4 : Reachable (handleParseCompleted sParseDone) :=
    Reachable.step h3 (CoordStep.parseEvent sParseDone rfl)
  have heq : handleParseCompleted sParseDone = sClassifyPending := by decide
  rw [heq] at h4
  exact h4

/-- C4 witness: the reachable state with CLASSIFY pending indeed has its
PARSE job COMPLETED and the model persisted. -/
theorem classify_never_claimable_before_parse_witness :
    sClassifyPending.parse = some JobStatus.COMPLETED ∧
    sClassifyPending.modelPersisted = true :=
  classify_never_claimable_before_parse sClassifyPending reachable_sClassifyPending rfl

/-- C6: the Coordinator's completion-event handlers are idempotent —
delivering a PARSE (or CLASSIFY) completion a second time leaves the
state exactly as after the first delivery, in particular enqueues no
second CLASSIFY job; and once the TemplateVersion has left the state the
handler is keyed on, a (re)delivered event changes nothing at all. -/
theorem coordinator_replay_noop (s : CoordState) :
    handleParseCompleted (handleParseCompleted s) = handleParseCompleted s ∧
    (handleParseCompleted (handleParseCompleted s)).classifyEnqueued
      = (handleParseCompleted s).classifyEnqueued ∧
    handleClassifyCompleted (handleClassifyCompleted s) = handleClassifyCompleted s ∧
    (s.tv ≠ TVState.PARSING → handleParseCompleted s = s) ∧
    (s.tv ≠ TVState.CLASSIFYING → handleClassifyCompleted s = s) := by
  have hp : handleParseCompleted (handleParseCompleted s) = handleParseCompleted s := by
    unfold handleParseCompleted
    by_cases hg : s.tv = TVState.PARSING ∧ s.parse = some JobStatus.COMPLETED
    · rw [if_pos hg]; simp
    · rw [if_neg hg, if_neg hg]
  have hcl : handleClassifyCompleted (handleClassifyCompleted s)
      = handleClassifyCompleted s := by
    unfold handleClassifyCompleted
    by_cases hg : s.tv = TVState.CLASSIFYING ∧ s.classify = some JobStatus.COMPLETED
    · rw [if_pos hg]; simp
    · rw [if_neg hg, if_neg hg]
  refine ⟨hp, by rw [hp], hcl, ?_, ?_⟩
  · intro h
    unfold handleParseCompleted
    rw [if_neg (fun hg => h hg.1)]
  · intro h
    unfold handleClassifyCompleted
    rw [if_neg (fun hg => h hg.1)]

/-- C6 witness: once CLASSIFY is enqueued (the TemplateVersion left
PARSING), redelivering the PARSE completion changes nothing — no second
CLASSIFY job appears. -/
theorem coordinator_replay_noop_witness :
    handleParseCompleted sClassifyPending = sClassifyPending :=
  (coordinator_replay_noop sClassifyPending).2.2.2.1 (by decide)

/-- READY is reachable: continue from CLASSIFY pending with claim,
complete, and the coordinator's CLASSIFY reaction. -/
theorem reachable_sReady : Reachable sReady := by
  have h5 : Reachable sClassifyRunning :=
    Reachable.step reachable_sClassifyPending
      (CoordStep.claimClassify sClassifyPending rfl)
  have h6 : Reachable sClassifyDone :=
    Reachable.step h5 (CoordStep.completeClassify sClassifyRunning rfl)
  have h7 : Reachable (handleClassifyCompleted sClassifyDone) :=
    Reachable.step h6 (CoordStep.classifyEvent sClassifyDone rfl)
  have heq : handleClassifyCompleted sClassifyDone = sReady := by decide
  rw [heq] at h7
  exact h7

/-- C7: in every reachable pipeline state, `createDocument` is accepted
exactly when the TemplateVersion is READY — a state in which both PARSE
and CLASSIFY have COMPLETED — and then appends exactly one GENERATE job
to the queue; otherwise it fails with `NotReadyError` and returns no new
state, so nothing is enqueued. -/
theorem createDocument_iff_ready (s : CoordState) (queue : List JobType)
    (hr : Reachable s) :
    (isAccepted (createDocument s queue) = true ↔ s.tv = TVState.READY) ∧
    (s.tv = TVState.READY →
      createDocument s queue = Except.ok (s, queue ++ [JobType.GENERATE]) ∧
      s.parse = some JobStatus.COMPLETED ∧ s.classify = some JobStatus.COMPLETED) ∧
    (s.tv ≠ TVState.READY → createDocument s queue = Except.error "NotReadyError") := by
  have hinv := coordInv_reachable s hr
  by_cases h : s.tv = TVState.READY
  · refine ⟨?_, ?_, ?_⟩
    · simp [createDocument, isAccepted, h]
    · intro _
      exact ⟨by simp [createDocument, h], (hinv.2.2 h).1, (hinv.2.2 h).2.1⟩
    · intro hne; exact absurd h hne
  · refine ⟨?_, ?_, ?_⟩
    · simp [createDocument, isAccepted, h]
    · intro hx; exact absurd hx h
    · intro _; simp [createDocument, h]

/-- C7 witness: against the reachable READY state, document creation is
accepted and enqueues exactly one GENERATE job on an empty queue. -/
theorem createDocument_iff_ready_witness :
    createDocument sReady [] = Except.ok (sReady, [JobType.GENERATE]) :=
  (((createDocument_iff_ready sReady [] reachable_sReady).2.1) rfl).1

end TemplateEngine
